import Mathlib

/-!
Verification of the EnvTypesWebpack repository: a shallow embedding of
`src/EnvTypesGenerator.ts` (env-file parser and `.d.ts` generator) and of
the webpack integration `src/EnvTypesPlugin.ts`.

JavaScript strings are modelled as Lean `String`s, and the JS string
methods the code uses (`split` on a one-character separator, `join`,
`trim`, `startsWith`, `endsWith`, `includes`, `indexOf` plus `slice`) are
given as functions on the character list `String.data`, which matches the
JS semantics character for character on the inputs the program handles.
File-system state is an explicit association list from paths to contents;
the nondeterministic generation timestamp (`new Date()`) is an explicit
parameter.
-/

namespace EnvTypes

/-- JS `s.split(c)` for a one-character separator: split at every
occurrence of `c`, keeping empty chunks. -/
def strSplitChar (s : String) (c : Char) : List String :=
  (s.data.splitOn c).map (fun l => String.mk l)

/-- JS `parts.join(sep)`. -/
def strJoin (sep : String) (parts : List String) : String :=
  String.mk (List.intercalate sep.data (parts.map String.data))

/-- JS `s.trim()`: strip whitespace from both ends of the string. -/
def jsTrim (s : String) : String :=
  String.mk (((s.data.dropWhile Char.isWhitespace).reverse.dropWhile
    Char.isWhitespace).reverse)

/-- JS `s.startsWith(p)`. -/
def strStartsWith (s p : String) : Bool :=
  p.data.isPrefixOf s.data

/-- JS `s.endsWith(p)`. -/
def strEndsWith (s p : String) : Bool :=
  p.data.isSuffixOf s.data

/-- JS `s.includes(c)` for a single character. -/
def strContainsChar (s : String) (c : Char) : Bool :=
  s.data.contains c

/-- JS `s.slice(n)` for a nonnegative index: drop the first `n`
characters. -/
def strDropChars (s : String) (n : Nat) : String :=
  String.mk (s.data.drop n)

/-- `EnvEntry` (src/EnvTypesGenerator.ts lines 7-12): one parsed
environment variable, a key and an optional JSDoc comment. -/
structure EnvEntry where
  key : String
  comment : Option String
deriving Repr, DecidableEq

/-- JS `line.replace(/^#\s?/, '')` (line 82): strip one leading `#` and at
most one whitespace character after it; other strings are unchanged. -/
def stripCommentMarker (line : String) : String :=
  match line.data with
  | '#' :: c :: rest =>
    if c.isWhitespace then String.mk rest else String.mk (c :: rest)
  | '#' :: [] => ""
  | _ => line

/-- The declaration branch of `parseEnvFile` (lines 92-106): split the
`export `-cleaned line on the *first* `=` (JS `split('=')` followed by
`rest.join('=')`), trim the key, and detect an inline comment at the first
`#` of the value part (JS `indexOf('#')` and `slice(hashIndex + 1)`).
Returns the key, the full value part after the first `=`, and the optional
inline comment. -/
def parseDeclLine (cleaned : String) : String × String × Option String :=
  let parts := strSplitChar cleaned '='
  let left := parts.headD ""
  let valuePart := strJoin "=" parts.tail
  let key := jsTrim left
  let inlineComment :=
    if strContainsChar valuePart '#' then
      some (jsTrim (String.mk
        ((valuePart.data.dropWhile (fun c => !(c == '#'))).drop 1)))
    else none
  (key, valuePart, inlineComment)

/-- The line loop of `parseEnvFile` (lines 71-114) with the pending
comment buffer (`commentBuffer`) passed explicitly. -/
def parseEnvLoop : List String → List String → List EnvEntry
  | [], _ => []
  | rawLine :: rest, commentBuffer =>
    let line := jsTrim rawLine
    if line = "" then
      -- empty line: reset comment buffer (lines 74-78)
      parseEnvLoop rest []
    else if strStartsWith line "#" then
      -- comment line (lines 80-84)
      parseEnvLoop rest (commentBuffer ++ [stripCommentMarker line])
    else if !(strContainsChar line '=') then
      -- not a variable declaration (lines 86-90)
      parseEnvLoop rest []
    else
      -- declaration (lines 92-113)
      let cleaned :=
        if strStartsWith line "export " then strDropChars line 7 else line
      let pd := parseDeclLine cleaned
      -- `...(inlineComment ? [inlineComment] : [])` (lines 103-106): JS
      -- truthiness also drops an inline comment that trimmed to ""
      let comments :=
        commentBuffer ++
          (match pd.2.2 with
            | some c => if c = "" then [] else [c]
            | none => [])
      let entry : EnvEntry :=
        { key := pd.1
          comment :=
            if comments.isEmpty then none else some (strJoin "\n" comments) }
      entry :: parseEnvLoop rest []

/-- `EnvTypesGenerator.parseEnvFile` (lines 66-117). -/
def parseEnvFile (content : String) : List EnvEntry :=
  parseEnvLoop (strSplitChar content '\n') []

/-- `EnvTypesGenerator.generateJSDoc` (lines 122-129). -/
def generateJSDoc (comment : String) : String :=
  let lines :=
    strJoin "\n" ((strSplitChar comment '\n').map (fun line => "     * " ++ line))
  "    /**\n" ++ lines ++ "\n     */"

/-- The member line of `generateInterfaceBody` (lines 138 and 142):
`    ${key}${disablePartialType ? '' : '?'}: string;`. -/
def memberLine (disablePartialType : Bool) (e : EnvEntry) : String :=
  "    " ++ e.key ++ (if disablePartialType then "" else "?") ++ ": string;"

/-- `EnvTypesGenerator.generateInterfaceBody` (lines 134-145), with the
instance option `disablePartialType` passed explicitly. -/
def generateInterfaceBody (disablePartialType : Bool)
    (entries : List EnvEntry) : String :=
  strJoin "\n" (entries.map (fun e =>
    match e.comment with
    | none => memberLine disablePartialType e
    | some c => generateJSDoc c ++ "\n" ++ memberLine disablePartialType e))

/-- A JS `Date`, reduced to the getters used by `generateContent`
(lines 147-161): `getFullYear`, `getMonth` (0-based), `getDate`,
`getHours`, `getMinutes`, `getSeconds`. -/
structure JsDate where
  fullYear : Nat
  month : Nat
  date : Nat
  hours : Nat
  minutes : Nat
  seconds : Nat
deriving Repr, DecidableEq

/-- Fueled helper for `natToDigits`: the fuel only bounds the recursion
depth and is never exhausted when it starts at `n + 1`, because the
dividend shrinks by a factor of ten each step. -/
def natToDigitsAux : Nat → Nat → List Char
  | 0, _ => []
  | fuel + 1, n =>
    if n < 10 then [Char.ofNat (48 + n)]
    else natToDigitsAux fuel (n / 10) ++ [Char.ofNat (48 + n % 10)]

/-- Decimal digit characters of a natural number, most significant first:
JS `n.toString()` for a nonnegative integer. -/
def natToDigits (n : Nat) : List Char :=
  natToDigitsAux (n + 1) n

/-- JS `n.toString()` for a natural number. -/
def natToString (n : Nat) : String :=
  String.mk (natToDigits n)

/-- The `pad` helper of `generateContent` (line 151):
`n.toString().padStart(2, '0')`. -/
def pad2 (n : Nat) : String :=
  let s := natToString n
  String.mk (List.replicate (2 - s.data.length) '0' ++ s.data)

/-- `EnvTypesGenerator.generateContent` (lines 147-161): the timestamp
line body `Generated: YYYY-MM-DDThh:mm:ss` (the source pads `month + 1`
because JS months are 0-based). -/
def generateContent (now : JsDate) : String :=
  "Generated: " ++ natToString now.fullYear ++ "-" ++ pad2 (now.month + 1) ++
    "-" ++ pad2 now.date ++ "T" ++ pad2 now.hours ++ ":" ++ pad2 now.minutes ++
    ":" ++ pad2 now.seconds

/-- `EnvTypesGenerator.generateDTS` (lines 166-181): the complete output
file content. -/
def generateDTS (disablePartialType : Bool) (entries : List EnvEntry)
    (sourceFile : String) (now : JsDate) : String :=
  let body := generateInterfaceBody disablePartialType entries
  "// ⚠️ AUTO-GENERATED FILE — DO NOT EDIT\n// Source: " ++
    sourceFile ++ "\n// " ++ generateContent now ++
    "\n\ndeclare namespace NodeJS \x7b\n  interface ProcessEnv \x7b\n" ++
    body ++ "\n  \x7d\n\x7d\n\nexport \x7b\x7d;\n"

/-- The `stripMetadata` helper of `shouldUpdate` (lines 194-199): remove
every line starting with `// Generated:`. -/
def stripMetadata (content : String) : String :=
  strJoin "\n" ((strSplitChar content '\n').filter
    (fun line => !(strStartsWith line "// Generated:")))

/-- `EnvTypesGenerator.shouldUpdate` (lines 186-202), with the current
on-disk content (`none` when the output file does not exist) passed
explicitly. -/
def shouldUpdate (existing : Option String) (newContent : String) : Bool :=
  match existing with
  | none => true
  | some currentContent => stripMetadata currentContent != stripMetadata newContent

/-- The file system visible to the generator: an association list from
paths to file contents (the first binding for a path wins). -/
structure FS where
  files : List (String × String)
deriving Repr, DecidableEq

/-- `fs.readFileSync(p, 'utf-8')`, as an `Option`. -/
def FS.read (fsys : FS) (p : String) : Option String :=
  fsys.files.lookup p

/-- `fs.existsSync(p)`. -/
def FS.existsSync (fsys : FS) (p : String) : Bool :=
  (fsys.read p).isSome

/-- `fs.writeFileSync(p, c, 'utf-8')`. -/
def FS.write (fsys : FS) (p c : String) : FS :=
  ⟨(p, c) :: fsys.files⟩

/-- `EnvTypesGenerator.findEnvFile` (lines 52-61): the first candidate
path that exists, `none` when the source throws. -/
def findEnvFile (envFiles : List String) (fsys : FS) : Option String :=
  match envFiles with
  | [] => none
  | f :: rest => if fsys.existsSync f then some f else findEnvFile rest fsys

/-- The error message thrown by `findEnvFile` (lines 58-60). -/
def noSourceMessage (envFiles : List String) : String :=
  "No env files found. Searched: " ++ strJoin ", " envFiles

/-- Outcome of one `generate()` call (lines 218-235): the thrown
no-source error, the up-to-date skip, or a write with the logged entry
count and source path. -/
inductive GenerateResult where
  | noSourceFound (message : String)
  | upToDate
  | written (count : Nat) (sourceFile : String)
deriving Repr, DecidableEq

/-- `EnvTypesGenerator.generate` (lines 218-235), with the instance
options, the current `Date` and the file system passed explicitly.
Returns the outcome together with the file system after the call. -/
def generate (envFiles : List String) (outputPath : String)
    (disablePartialType : Bool) (now : JsDate) (fsys : FS) :
    GenerateResult × FS :=
  match findEnvFile envFiles fsys with
  | none => (.noSourceFound (noSourceMessage envFiles), fsys)
  | some envFile =>
    -- `findEnvFile` only returns an existing path, so this read succeeds
    let content := (fsys.read envFile).getD ""
    let entries := parseEnvFile content
    let dts := generateDTS disablePartialType entries envFile now
    if !(shouldUpdate (fsys.read outputPath) dts) then
      (.upToDate, fsys)
    else
      (.written entries.length envFile, fsys.write outputPath dts)

/-- What a webpack hook body did: the console output it produced and the
error it let escape, if any. -/
structure HookOutcome where
  logs : List String
  thrown : Option String
deriving Repr, DecidableEq

/-- `EnvTypesPlugin.generateTypes` (src/EnvTypesPlugin.ts lines 471-490 of
the test bundle): run the generator script, catch any failure and log it
with the plugin error message; nothing escapes.  The outcome of the
`execSync` call on the generator script is passed as an `Except`. -/
def generateTypes (run : Except String Unit) : HookOutcome :=
  match run with
  | .ok _ => { logs := [], thrown := none }
  | .error msg =>
    { logs := ["[EnvTypesPlugin] Failed to generate env types: " ++ msg]
      thrown := none }

/-- Outcome of the `beforeCompile` hook body (lines 549-552):
`generateTypes()` followed unconditionally by `callback()`. -/
structure BeforeCompileOutcome where
  outcome : HookOutcome
  callbackInvoked : Bool
deriving Repr, DecidableEq

/-- The `beforeCompile` tap of `EnvTypesPlugin.apply` (lines 549-552). -/
def beforeCompileHook (run : Except String Unit) : BeforeCompileOutcome :=
  { outcome := generateTypes run, callbackInvoked := true }

/-- `EnvTypesPlugin.hasEnvFileChanged` (lines 495-499): coarse suffix
match of each changed file against each configured env file. -/
def hasEnvFileChanged (envFiles changedFiles : List String) : Bool :=
  changedFiles.any (fun file => envFiles.any (fun envFile => strEndsWith file envFile))

/-- The `watchRun` tap of `EnvTypesPlugin.apply` (lines 555-560):
regenerate when a tracked env file changed; `compiler.modifiedFiles` may
be absent. -/
def watchRunHook (envFiles : List String) (modifiedFiles : Option (List String))
    (run : Except String Unit) : HookOutcome :=
  match modifiedFiles with
  | some changed =>
    if hasEnvFileChanged envFiles changed then generateTypes run
    else { logs := [], thrown := none }
  | none => { logs := [], thrown := none }

/-- Modelled from the spec: the value-as-type emission mode
(`useValuesAsTypes`).  The option is declared in the repository's options
interface (src/unnamed/part_000 lines 39-44) and exercised by the test
"should handle useValuesAsTypes option", but the generator implementation
under src/src/EnvTypesGenerator.ts does not implement it — its `EnvEntry`
does not even keep the value.  Following spec §3, `EnvEntryV` extends the
parsed entry with the raw value text after the first `=` (everything
before the inline comment marker when one is present). -/
structure EnvEntryV where
  key : String
  comment : Option String
  value : String
deriving Repr, DecidableEq

/-- The source-generator entry underlying a value-carrying entry. -/
def EnvEntryV.toEntry (e : EnvEntryV) : EnvEntry :=
  { key := e.key, comment := e.comment }

/-- Modelled from the spec: the declaration split of the value-carrying
parser, spec §4 step 5: split on the first `=`; within the remainder,
everything before the first `#` is the value (the whole remainder when
there is no `#`). -/
def parseDeclLineV (cleaned : String) : EnvEntryV :=
  let pd := parseDeclLine cleaned
  let value :=
    if strContainsChar pd.2.1 '#' then
      String.mk (pd.2.1.data.takeWhile (fun c => !(c == '#')))
    else pd.2.1
  { key := pd.1
    comment := pd.2.2
    value := value }

/-- Modelled from the spec: the member line of the rendering with the
value-as-type mode, spec §4: the member's type is "a type pinned to the
entry's literal raw value instead of the generic type" when the mode is
on, and the generic `string` type when it is off. -/
def memberLineV (useValuesAsTypes disablePartialType : Bool)
    (e : EnvEntryV) : String :=
  "    " ++ e.key ++ (if disablePartialType then "" else "?") ++ ": " ++
    (if useValuesAsTypes then "\"" ++ e.value ++ "\"" else "string") ++ ";"

/-- Modelled from the spec: the line loop of the value-carrying parser
(same control flow as `parseEnvLoop`, keeping the raw value). -/
def parseEnvLoopV : List String → List String → List EnvEntryV
  | [], _ => []
  | rawLine :: rest, commentBuffer =>
    let line := jsTrim rawLine
    if line = "" then
      parseEnvLoopV rest []
    else if strStartsWith line "#" then
      parseEnvLoopV rest (commentBuffer ++ [stripCommentMarker line])
    else if !(strContainsChar line '=') then
      parseEnvLoopV rest []
    else
      let cleaned :=
        if strStartsWith line "export " then strDropChars line 7 else line
      let pd := parseDeclLineV cleaned
      -- like the source loop, JS truthiness drops an inline comment that
      -- trimmed to the empty string
      let comments :=
        commentBuffer ++
          (match pd.comment with
            | some c => if c = "" then [] else [c]
            | none => [])
      let entry : EnvEntryV :=
        { key := pd.key
          comment :=
            if comments.isEmpty then none else some (strJoin "\n" comments)
          value := pd.value }
      entry :: parseEnvLoopV rest []

/-- Modelled from the spec: the value-carrying parser. -/
def parseEnvFileV (content : String) : List EnvEntryV :=
  parseEnvLoopV (strSplitChar content '\n') []

/-- Modelled from the spec: the interface-body rendering with the
value-as-type toggle. -/
def generateInterfaceBodyV (useValuesAsTypes disablePartialType : Bool)
    (entries : List EnvEntryV) : String :=
  strJoin "\n" (entries.map (fun e =>
    match e.comment with
    | none => memberLineV useValuesAsTypes disablePartialType e
    | some c =>
      generateJSDoc c ++ "\n" ++ memberLineV useValuesAsTypes disablePartialType e))

end EnvTypes

namespace EnvTypes

/-! Generic lemmas about the JS string primitives. -/

theorem splitOnP_sep_append (p : Char → Bool) (c : Char) (hc : p c = true)
    (xs ys : List Char) :
    (xs ++ c :: ys).splitOnP p = xs.splitOnP p ++ ys.splitOnP p := by
  induction xs with
  | nil => simp [List.splitOnP_cons, hc, List.splitOnP_nil]
  | cons x xs ih =>
    rw [List.cons_append, List.splitOnP_cons, List.splitOnP_cons]
    cases hpx : p x with
    | true => simp [ih]
    | false =>
      simp only [hpx, Bool.false_eq_true, if_false, ih]
      obtain ⟨a, as, ha⟩ := List.exists_cons_of_ne_nil (List.splitOnP_ne_nil p xs)
      rw [ha]
      simp [List.modifyHead]

theorem mk_data (s : String) : String.mk s.data = s := rfl

theorem strSplitChar_decomp (s : String) (c : Char) (x y : List Char)
    (h : s.data = x ++ c :: y) :
    strSplitChar s c =
      (x.splitOnP (· == c)).map String.mk ++ (y.splitOnP (· == c)).map String.mk := by
  simp only [strSplitChar, List.splitOn, h]
  rw [splitOnP_sep_append _ c (by simp), List.map_append]

theorem strSplitChar_eq_single (s : String) (c : Char) (h : c ∉ s.data) :
    strSplitChar s c = [s] := by
  simp only [strSplitChar, List.splitOn]
  rw [List.splitOnP_eq_single]
  · exact congrArg (fun l => [l]) (mk_data s)
  · intro x hx
    simp only [beq_iff_eq]
    exact fun e => h (e ▸ hx)

theorem strSplitChar_strJoin_newline (lines : List String)
    (h : ∀ l ∈ lines, '\n' ∉ l.data) (h2 : lines ≠ []) :
    strSplitChar (strJoin "\n" lines) '\n' = lines := by
  simp only [strSplitChar, strJoin]
  rw [List.splitOn_intercalate (lines.map String.data) '\n'
    (by intro l hl; obtain ⟨a, ha, rfl⟩ := List.mem_map.mp hl; exact h a ha)
    (by simpa using h2)]
  rw [List.map_map]
  exact List.map_id'' (fun s => mk_data s) lines

theorem strJoin_strSplitChar (v : String) (c : Char) :
    strJoin (String.mk [c]) (strSplitChar v c) = v := by
  simp only [strJoin, strSplitChar, List.map_map]
  have hmaps : List.map (String.data ∘ fun l => String.mk l) (v.data.splitOn c) =
      List.map id (v.data.splitOn c) := rfl
  rw [hmaps, List.map_id, List.intercalate_splitOn v.data c]

theorem strStartsWith_iff (s p : String) :
    strStartsWith s p = true ↔ p.data <+: s.data := by
  simp [strStartsWith]

end EnvTypes

namespace EnvTypes

theorem jsTrim_not_mem (s : String) (c : Char) (h : c ∉ s.data) :
    c ∉ (jsTrim s).data := by
  intro hc
  simp only [jsTrim] at hc
  rw [List.mem_reverse] at hc
  have h1 := (List.dropWhile_sublist Char.isWhitespace).subset hc
  rw [List.mem_reverse] at h1
  exact h ((List.dropWhile_sublist Char.isWhitespace).subset h1)

theorem dropWhile_cons_head_false (p : Char → Bool) (l : List Char) (a : Char)
    (as : List Char) (h : l.dropWhile p = a :: as) : p a = false := by
  have := List.head?_dropWhile_not p l
  rw [h] at this
  simpa using this

theorem dropWhile_idem (p : Char → Bool) (l : List Char) :
    (l.dropWhile p).dropWhile p = l.dropWhile p := by
  cases h : l.dropWhile p with
  | nil => simp
  | cons a as =>
    rw [List.dropWhile_cons, dropWhile_cons_head_false p l a as h]
    simp

theorem jsTrim_idem (s : String) : jsTrim (jsTrim s) = jsTrim s := by
  simp only [jsTrim]
  have hstep : ((s.data.dropWhile Char.isWhitespace).reverse.dropWhile
      Char.isWhitespace).reverse.dropWhile Char.isWhitespace =
      ((s.data.dropWhile Char.isWhitespace).reverse.dropWhile
        Char.isWhitespace).reverse := by
    set l1 := s.data.dropWhile Char.isWhitespace with hl1
    set m := (l1.reverse.dropWhile Char.isWhitespace).reverse with hm
    have hmp : m <+: l1 := by
      rw [← @List.reverse_suffix _ m l1]
      rw [hm, List.reverse_reverse]
      exact List.dropWhile_suffix Char.isWhitespace
    cases hmc : m with
    | nil => simp
    | cons a as =>
      obtain ⟨t, ht⟩ := hmp
      rw [hmc] at ht
      have hl1c : s.data.dropWhile Char.isWhitespace = a :: (as ++ t) := by
        rw [← hl1, ← ht]
        simp
      rw [List.dropWhile_cons,
        dropWhile_cons_head_false Char.isWhitespace s.data a (as ++ t) hl1c]
      simp
  rw [hstep, List.reverse_reverse, dropWhile_idem]

theorem jsTrim_ne_empty (s : String) (h : ∃ c ∈ s.data, ¬c.isWhitespace) :
    jsTrim s ≠ "" := by
  obtain ⟨c, hc, hcw⟩ := h
  have h1 : s.data.dropWhile Char.isWhitespace ≠ [] := by
    intro he
    exact hcw (List.dropWhile_eq_nil_iff.mp he c hc)
  have hhead := List.head_dropWhile_not Char.isWhitespace s.data h1
  have h2 : (s.data.dropWhile Char.isWhitespace).reverse.dropWhile
      Char.isWhitespace ≠ [] := by
    intro he
    have := List.dropWhile_eq_nil_iff.mp he
      ((s.data.dropWhile Char.isWhitespace).head h1)
      (by rw [List.mem_reverse]; exact List.head_mem h1)
    rw [hhead] at this
    exact Bool.false_ne_true this
  intro he
  have hdata : (jsTrim s).data = [] := by rw [he]
  simp only [jsTrim] at hdata
  rw [List.reverse_eq_nil_iff] at hdata
  exact h2 hdata

theorem natToDigitsAux_digit (fuel : Nat) : ∀ (n : Nat),
    ∀ c ∈ natToDigitsAux fuel n, ∃ d, d < 10 ∧ c = Char.ofNat (48 + d) := by
  induction fuel with
  | zero => intro n c hc; simp [natToDigitsAux] at hc
  | succ fuel ih =>
    intro n c hc
    rw [natToDigitsAux] at hc
    split at hc
    · next h =>
      simp only [List.mem_singleton] at hc
      exact ⟨n, h, hc⟩
    · next h =>
      rcases List.mem_append.mp hc with h1 | h2
      · exact ih (n / 10) c h1
      · simp only [List.mem_singleton] at h2
        exact ⟨n % 10, Nat.mod_lt _ (by omega), h2⟩

theorem natToDigits_digit (n : Nat) :
    ∀ c ∈ natToDigits n, ∃ d, d < 10 ∧ c = Char.ofNat (48 + d) :=
  natToDigitsAux_digit (n + 1) n

theorem digit_ne_newline : ∀ d : Nat, d < 10 → Char.ofNat (48 + d) ≠ '\n' := by
  decide

theorem natToString_no_newline (n : Nat) : '\n' ∉ (natToString n).data := by
  intro h
  obtain ⟨d, hd, he⟩ := natToDigits_digit n '\n' h
  exact digit_ne_newline d hd he.symm

theorem pad2_no_newline (n : Nat) : '\n' ∉ (pad2 n).data := by
  intro h
  simp only [pad2] at h
  rcases List.mem_append.mp h with h1 | h2
  · rw [List.mem_replicate] at h1
    exact absurd h1.2 (by decide)
  · exact natToString_no_newline n h2

theorem not_mem_data_append (c : Char) (a b : String) (ha : c ∉ a.data)
    (hb : c ∉ b.data) : c ∉ (a ++ b).data := by
  rw [String.data_append]
  intro h
  rcases List.mem_append.mp h with h1 | h1
  · exact ha h1
  · exact hb h1

theorem generateContent_no_newline (now : JsDate) :
    '\n' ∉ (generateContent now).data := by
  simp only [generateContent]
  repeat' apply not_mem_data_append
  all_goals first
    | decide
    | exact natToString_no_newline _
    | exact pad2_no_newline _
    | exact fun hmem => absurd (List.eq_of_mem_replicate hmem) (by decide)

end EnvTypes

namespace EnvTypes

theorem strStartsWith_of_data_eq (s p : String) (t : List Char)
    (h : s.data = p.data ++ t) : strStartsWith s p = true := by
  rw [strStartsWith_iff, h]
  exact List.prefix_append _ _

theorem startsWith_generated_line (now : JsDate) :
    strStartsWith ("// " ++ generateContent now) "// Generated:" = true := by
  apply strStartsWith_of_data_eq _ _ ((" " ++ natToString now.fullYear ++ "-" ++
    pad2 (now.month + 1) ++ "-" ++ pad2 now.date ++ "T" ++ pad2 now.hours ++
    ":" ++ pad2 now.minutes ++ ":" ++ pad2 now.seconds).data)
  simp [generateContent, String.data_append, List.append_assoc]

theorem stripMetadata_decomp (s P M Q : String)
    (hdata : s.data = P.data ++ '\n' :: (M.data ++ '\n' :: Q.data))
    (hM : '\n' ∉ M.data)
    (hMs : strStartsWith M "// Generated:" = true) :
    stripMetadata s =
      strJoin "\n" (((strSplitChar P '\n').filter
          (fun l => !(strStartsWith l "// Generated:"))) ++
        ((strSplitChar Q '\n').filter
          (fun l => !(strStartsWith l "// Generated:")))) := by
  rw [stripMetadata, strSplitChar_decomp s '\n' _ _ hdata]
  rw [splitOnP_sep_append (· == '\n') '\n' (by simp) M.data Q.data]
  rw [List.splitOnP_eq_single (fun x => x == '\n') M.data
    (fun x hx => by simp only [beq_iff_eq]; exact fun e => hM (e ▸ hx))]
  simp only [List.map_append, List.filter_append, List.map_cons, List.map_nil,
    List.cons_append, List.nil_append]
  rw [List.filter_cons]
  simp only [mk_data, hMs, Bool.not_true, List.filter_nil]
  rfl

theorem generateDTS_data_decomp (dpt : Bool) (entries : List EnvEntry)
    (src : String) (d : JsDate) :
    (generateDTS dpt entries src d).data =
      ("// ⚠️ AUTO-GENERATED FILE — DO NOT EDIT\n// Source: " ++ src).data ++
        '\n' :: (("// " ++ generateContent d).data ++
          '\n' :: (("\ndeclare namespace NodeJS \x7b\n  interface ProcessEnv \x7b\n" ++
            generateInterfaceBody dpt entries ++
            "\n  \x7d\n\x7d\n\nexport \x7b\x7d;\n").data)) := by
  simp [generateDTS, String.data_append, List.append_assoc, List.cons_append]

theorem stripMetadata_generateDTS (dpt : Bool) (entries : List EnvEntry)
    (src : String) (d1 d2 : JsDate) :
    stripMetadata (generateDTS dpt entries src d1) =
      stripMetadata (generateDTS dpt entries src d2) := by
  rw [stripMetadata_decomp _ _ ("// " ++ generateContent d1) _
      (generateDTS_data_decomp dpt entries src d1)
      (not_mem_data_append _ _ _ (by decide) (generateContent_no_newline d1))
      (startsWith_generated_line d1),
    stripMetadata_decomp _ _ ("// " ++ generateContent d2) _
      (generateDTS_data_decomp dpt entries src d2)
      (not_mem_data_append _ _ _ (by decide) (generateContent_no_newline d2))
      (startsWith_generated_line d2)]

theorem shouldUpdate_of_stripMetadata_eq (a b : String)
    (h : stripMetadata a = stripMetadata b) :
    shouldUpdate (some a) b = false := by
  simp [shouldUpdate, h]

end EnvTypes

namespace EnvTypes

theorem read_write_self (fsys : FS) (p c : String) :
    (fsys.write p c).read p = some c := by
  simp [FS.read, FS.write]

theorem read_write_ne (fsys : FS) (p q c : String) (h : q ≠ p) :
    (fsys.write p c).read q = fsys.read q := by
  simp only [FS.read, FS.write, List.lookup_cons]
  rw [show (q == p) = false by simpa using h]

theorem existsSync_write_ne (fsys : FS) (p q c : String) (h : q ≠ p) :
    (fsys.write p c).existsSync q = fsys.existsSync q := by
  simp [FS.existsSync, read_write_ne fsys p q c h]

theorem findEnvFile_spec (envFiles : List String) (fsys : FS) (f : String)
    (h : findEnvFile envFiles fsys = some f) :
    f ∈ envFiles ∧ fsys.existsSync f = true := by
  induction envFiles with
  | nil => simp [findEnvFile] at h
  | cons a rest ih =>
    rw [findEnvFile] at h
    by_cases ha : fsys.existsSync a = true
    · rw [if_pos ha] at h
      cases h
      exact ⟨List.mem_cons_self _ _, ha⟩
    · rw [if_neg ha] at h
      obtain ⟨h1, h2⟩ := ih h
      exact ⟨List.mem_cons_of_mem a h1, h2⟩

theorem findEnvFile_none (envFiles : List String) (fsys : FS)
    (h : ∀ f ∈ envFiles, fsys.existsSync f = false) :
    findEnvFile envFiles fsys = none := by
  induction envFiles with
  | nil => rfl
  | cons a rest ih =>
    rw [findEnvFile, if_neg (by simp [h a (List.mem_cons_self a rest)])]
    exact ih (fun f hf => h f (List.mem_cons_of_mem a hf))

theorem findEnvFile_write_not_mem (envFiles : List String) (fsys : FS)
    (out c : String) (h : out ∉ envFiles) :
    findEnvFile envFiles (fsys.write out c) = findEnvFile envFiles fsys := by
  induction envFiles with
  | nil => rfl
  | cons a rest ih =>
    have ha : a ≠ out := fun e => h (e ▸ List.mem_cons_self a rest)
    rw [findEnvFile, findEnvFile, existsSync_write_ne fsys out a c ha]
    rw [ih (fun hm => h (List.mem_cons_of_mem a hm))]

/-- `generate` when no candidate source exists: the thrown error and an
unchanged file system. -/
theorem generate_no_source (envFiles : List String) (outputPath : String)
    (dpt : Bool) (now : JsDate) (fsys : FS)
    (h : ∀ f ∈ envFiles, fsys.existsSync f = false) :
    generate envFiles outputPath dpt now fsys =
      (.noSourceFound (noSourceMessage envFiles), fsys) := by
  rw [generate, findEnvFile_none envFiles fsys h]

/-- `generate` when a source is found and the output file is absent:
always a write. -/
theorem generate_fresh_write (envFiles : List String) (outputPath : String)
    (dpt : Bool) (now : JsDate) (fsys : FS) (f c : String)
    (hfind : findEnvFile envFiles fsys = some f)
    (hread : fsys.read f = some c)
    (hout : fsys.read outputPath = none) :
    generate envFiles outputPath dpt now fsys =
      (.written (parseEnvFile c).length f,
        fsys.write outputPath (generateDTS dpt (parseEnvFile c) f now)) := by
  rw [generate, hfind]
  simp only [hread, Option.getD_some, hout, shouldUpdate, Bool.not_true,
    Bool.false_eq_true, if_false]

end EnvTypes

namespace EnvTypes

theorem strJoin_singleton (sep x : String) : strJoin sep [x] = x := by
  simp [strJoin, List.intercalate, List.intersperse]

theorem parseEnvLoop_blank (l0 : String) (rest buf : List String)
    (h : jsTrim l0 = "") :
    parseEnvLoop (l0 :: rest) buf = parseEnvLoop rest [] := by
  simp only [parseEnvLoop, h, if_pos]

theorem parseEnvLoop_comments (ls : List String) (rest buf : List String)
    (h : ∀ l ∈ ls, jsTrim l ≠ "" ∧ strStartsWith (jsTrim l) "#" = true) :
    parseEnvLoop (ls ++ rest) buf =
      parseEnvLoop rest (buf ++ ls.map (fun l => stripCommentMarker (jsTrim l))) := by
  induction ls generalizing buf with
  | nil => simp
  | cons a as ih =>
    obtain ⟨h1, h2⟩ := h a (List.mem_cons_self _ _)
    rw [List.cons_append]
    simp only [parseEnvLoop]
    rw [if_neg h1, if_pos h2, List.map_cons]
    rw [show buf ++ stripCommentMarker (jsTrim a) ::
        List.map (fun l => stripCommentMarker (jsTrim l)) as =
        (buf ++ [stripCommentMarker (jsTrim a)]) ++
          List.map (fun l => stripCommentMarker (jsTrim l)) as by simp]
    exact ih _ (fun l hl => h l (List.mem_cons_of_mem a hl))

theorem parseEnvLoop_decl (kl : String) (rest buf : List String)
    (hne : jsTrim kl ≠ "")
    (hhash : strStartsWith (jsTrim kl) "#" = false)
    (heq : strContainsChar (jsTrim kl) '=' = true) :
    parseEnvLoop (kl :: rest) buf =
      (let cleaned := if strStartsWith (jsTrim kl) "export " then
          strDropChars (jsTrim kl) 7 else jsTrim kl
       let pd := parseDeclLine cleaned
       let comments := buf ++
         (match pd.2.2 with
           | some c => if c = "" then [] else [c]
           | none => [])
       ({ key := pd.1
          comment := if comments.isEmpty then none
            else some (strJoin "\n" comments) } : EnvEntry)) ::
        parseEnvLoop rest [] := by
  simp only [parseEnvLoop, if_neg hne, hhash, Bool.false_eq_true, if_false, heq,
    Bool.not_true]

theorem parseDeclLine_eq (k v : String) (hk : '=' ∉ k.data) :
    parseDeclLine (k ++ "=" ++ v) =
      (jsTrim k, v,
        if strContainsChar v '#' then
          some (jsTrim (String.mk
            ((v.data.dropWhile (fun c => !(c == '#'))).drop 1)))
        else none) := by
  have hd : (k ++ "=" ++ v).data = k.data ++ '=' :: v.data := by
    simp [String.data_append]
  have hparts : strSplitChar (k ++ "=" ++ v) '=' = k :: strSplitChar v '=' := by
    rw [strSplitChar_decomp _ '=' _ _ hd,
      List.splitOnP_eq_single (fun x => x == '=') k.data
        (fun x hx => by simp only [beq_iff_eq]; exact fun e => hk (e ▸ hx))]
    simp only [List.map_cons, List.map_nil, mk_data, List.cons_append,
      List.nil_append]
    rfl
  have hjoin : strJoin "=" (strSplitChar v '=') = v := strJoin_strSplitChar v '='
  simp only [parseDeclLine, hparts, List.headD_cons, List.tail_cons, hjoin]

theorem parseEnvFile_single (content : String) (h : '\n' ∉ content.data) :
    parseEnvFile content = parseEnvLoop [content] [] := by
  rw [parseEnvFile, strSplitChar_eq_single _ _ h]

theorem parseEnvFile_lines (lines : List String)
    (h : ∀ l ∈ lines, '\n' ∉ l.data) (h2 : lines ≠ []) :
    parseEnvFile (strJoin "\n" lines) = parseEnvLoop lines [] := by
  rw [parseEnvFile, strSplitChar_strJoin_newline lines h h2]

end EnvTypes

namespace EnvTypes

theorem str_ext (a b : String) (h : a.data = b.data) : a = b := by
  have h2 := congrArg String.mk h
  rwa [mk_data, mk_data] at h2


end EnvTypes

namespace EnvTypes

/-- C4: when none of the candidate source paths exists, `generate` fails
with the no-source-found error (message naming the searched paths) and
leaves the file system unchanged: nothing is written. -/
theorem c4_no_source_writes_nothing (envFiles : List String)
    (outputPath : String) (dpt : Bool) (now : JsDate) (fsys : FS)
    (h : ∀ f ∈ envFiles, fsys.existsSync f = false) :
    generate envFiles outputPath dpt now fsys =
      (GenerateResult.noSourceFound (noSourceMessage envFiles), fsys) :=
  generate_no_source envFiles outputPath dpt now fsys h

theorem c4_witness :
    generate [".env", ".env.example"] "types/env.d.ts" false
        ⟨2025, 0, 1, 2, 3, 4⟩ ⟨[("other.txt", "x")]⟩ =
      (GenerateResult.noSourceFound
        (noSourceMessage [".env", ".env.example"]), ⟨[("other.txt", "x")]⟩) :=
  c4_no_source_writes_nothing [".env", ".env.example"] "types/env.d.ts" false
    ⟨2025, 0, 1, 2, 3, 4⟩ ⟨[("other.txt", "x")]⟩ (by decide)

/-- C10: when the output file does not exist, `shouldUpdate` is `true`
for every candidate content, and a generation run against that fresh
destination performs the write. -/
theorem c10_fresh_output_always_writes (envFiles : List String)
    (outputPath : String) (dpt : Bool) (now : JsDate) (fsys : FS)
    (f c : String)
    (hfind : findEnvFile envFiles fsys = some f)
    (hread : fsys.read f = some c)
    (hout : fsys.existsSync outputPath = false) :
    (∀ newContent, shouldUpdate (fsys.read outputPath) newContent = true) ∧
    generate envFiles outputPath dpt now fsys =
      (GenerateResult.written (parseEnvFile c).length f,
        fsys.write outputPath (generateDTS dpt (parseEnvFile c) f now)) := by
  have hnone : fsys.read outputPath = none := by
    cases hr : fsys.read outputPath with
    | none => rfl
    | some x => rw [FS.existsSync, hr] at hout; simp at hout
  constructor
  · intro newContent
    rw [hnone]
    rfl
  · exact generate_fresh_write envFiles outputPath dpt now fsys f c hfind hread hnone

theorem c10_witness :
    (∀ newContent,
      shouldUpdate ((⟨[(".env", "A=1")]⟩ : FS).read "env.d.ts") newContent = true) ∧
    generate [".env"] "env.d.ts" false ⟨2025, 0, 5, 3, 4, 5⟩ ⟨[(".env", "A=1")]⟩ =
      (GenerateResult.written (parseEnvFile "A=1").length ".env",
        FS.write ⟨[(".env", "A=1")]⟩ "env.d.ts"
          (generateDTS false (parseEnvFile "A=1") ".env" ⟨2025, 0, 5, 3, 4, 5⟩)) :=
  c10_fresh_output_always_writes [".env"] "env.d.ts" false ⟨2025, 0, 5, 3, 4, 5⟩
    ⟨[(".env", "A=1")]⟩ ".env" "A=1" (by decide) (by decide) (by decide)

end EnvTypes

namespace EnvTypes

/-- `generate` when a source file is found: the up-to-date check and the
conditional write (lines 218-235). -/
theorem generate_some (envFiles : List String) (outputPath : String)
    (dpt : Bool) (now : JsDate) (fsys : FS) (envFile : String)
    (hfind : findEnvFile envFiles fsys = some envFile) :
    generate envFiles outputPath dpt now fsys =
      if !(shouldUpdate (fsys.read outputPath)
          (generateDTS dpt (parseEnvFile ((fsys.read envFile).getD "")) envFile now)) then
        (GenerateResult.upToDate, fsys)
      else
        (GenerateResult.written
            (parseEnvFile ((fsys.read envFile).getD "")).length envFile,
          fsys.write outputPath
            (generateDTS dpt (parseEnvFile ((fsys.read envFile).getD "")) envFile now)) := by
  rw [generate, hfind]

/-- C1: the rendered artifact is timestamp-invariant once the
`// Generated:` line is stripped, so `shouldUpdate` returns `false`
whenever the existing file and the candidate differ only in that line,
and a second `generate` call over the file system produced by a first
writing call (same source, any later timestamp) reports up-to-date and
performs no write. -/
theorem c1_second_generate_skips_write (envFiles : List String)
    (outputPath : String) (dpt : Bool) (d1 d2 : JsDate) (fsys : FS)
    (n : Nat) (srcF : String) (fsys1 : FS)
    (entries : List EnvEntry) (src : String)
    (hout : outputPath ∉ envFiles)
    (h1 : generate envFiles outputPath dpt d1 fsys =
      (GenerateResult.written n srcF, fsys1)) :
    stripMetadata (generateDTS dpt entries src d1) =
      stripMetadata (generateDTS dpt entries src d2) ∧
    shouldUpdate (some (generateDTS dpt entries src d1))
      (generateDTS dpt entries src d2) = false ∧
    generate envFiles outputPath dpt d2 fsys1 = (GenerateResult.upToDate, fsys1) := by
  refine ⟨stripMetadata_generateDTS dpt entries src d1 d2,
    shouldUpdate_of_stripMetadata_eq _ _
      (stripMetadata_generateDTS dpt entries src d1 d2), ?_⟩
  cases hfind : findEnvFile envFiles fsys with
  | none =>
    rw [generate, hfind] at h1
    simp at h1
  | some envFile =>
    rw [generate_some envFiles outputPath dpt d1 fsys envFile hfind] at h1
    by_cases hsu : shouldUpdate (fsys.read outputPath)
        (generateDTS dpt (parseEnvFile ((fsys.read envFile).getD "")) envFile d1) = true
    · rw [if_neg (by simp [hsu])] at h1
      injection h1 with hres hfs
      subst hfs
      have henvmem : envFile ∈ envFiles := (findEnvFile_spec _ _ _ hfind).1
      have hne : envFile ≠ outputPath := fun e => hout (e ▸ henvmem)
      rw [generate_some envFiles outputPath dpt d2 _ envFile
        (by rw [findEnvFile_write_not_mem envFiles fsys outputPath _ hout]
            exact hfind)]
      rw [read_write_ne fsys outputPath envFile _ hne, read_write_self,
        shouldUpdate_of_stripMetadata_eq _ _
          (stripMetadata_generateDTS dpt
            (parseEnvFile ((fsys.read envFile).getD "")) envFile d1 d2)]
      rfl
    · have hsu2 : shouldUpdate (fsys.read outputPath)
          (generateDTS dpt (parseEnvFile ((fsys.read envFile).getD "")) envFile d1) =
          false := Bool.eq_false_iff.mpr hsu
      rw [if_pos (by simp [hsu2])] at h1
      simp at h1

end EnvTypes

namespace EnvTypes

set_option maxRecDepth 8192 in
theorem c1_witness :
    generate [".env"] "env.d.ts" false ⟨2026, 11, 6, 7, 8, 9⟩
        (FS.write ⟨[(".env", "A=1")]⟩ "env.d.ts"
          (generateDTS false (parseEnvFile "A=1") ".env" ⟨2025, 0, 5, 3, 4, 5⟩)) =
      (GenerateResult.upToDate,
        FS.write ⟨[(".env", "A=1")]⟩ "env.d.ts"
          (generateDTS false (parseEnvFile "A=1") ".env" ⟨2025, 0, 5, 3, 4, 5⟩)) :=
  (c1_second_generate_skips_write [".env"] "env.d.ts" false ⟨2025, 0, 5, 3, 4, 5⟩
      ⟨2026, 11, 6, 7, 8, 9⟩ ⟨[(".env", "A=1")]⟩ 1 ".env" _
      (parseEnvFile "A=1") ".env" (by decide) (by decide)).2.2

end EnvTypes

namespace EnvTypes

/-- C6: with candidates `[A, B]` where only `B` exists, the search picks
`B`, generation behaves exactly as if `B` were the only candidate, and
the artifact's second line is the provenance line naming `B`. -/
theorem c6_first_existing_candidate_wins (A B outputPath : String)
    (dpt : Bool) (now : JsDate) (fsys : FS)
    (hA : fsys.existsSync A = false)
    (hB : fsys.existsSync B = true)
    (hBn : '\n' ∉ B.data) :
    findEnvFile [A, B] fsys = some B ∧
    generate [A, B] outputPath dpt now fsys =
      generate [B] outputPath dpt now fsys ∧
    (strSplitChar
        (generateDTS dpt (parseEnvFile ((fsys.read B).getD "")) B now) '\n')[1]? =
      some ("// Source: " ++ B) := by
  have hfind : findEnvFile [A, B] fsys = some B := by
    rw [findEnvFile, if_neg (by simp [hA]), findEnvFile, if_pos hB]
  have hfind1 : findEnvFile [B] fsys = some B := by
    rw [findEnvFile, if_pos hB]
  refine ⟨hfind, ?_, ?_⟩
  · rw [generate_some [A, B] outputPath dpt now fsys B hfind,
      generate_some [B] outputPath dpt now fsys B hfind1]
  · have hdata : (generateDTS dpt (parseEnvFile ((fsys.read B).getD "")) B now).data =
        ("// ⚠️ AUTO-GENERATED FILE — DO NOT EDIT" : String).data ++
          '\n' :: (("// Source: " ++ B).data ++
            '\n' :: (("// " ++ generateContent now).data ++
              '\n' :: ("\ndeclare namespace NodeJS \x7b\n  interface ProcessEnv \x7b\n" ++
                generateInterfaceBody dpt (parseEnvFile ((fsys.read B).getD "")) ++
                "\n  \x7d\n\x7d\n\nexport \x7b\x7d;\n").data)) := by
      simp [generateDTS, String.data_append, List.append_assoc, List.cons_append]
    rw [strSplitChar_decomp _ '\n' _ _ hdata]
    rw [List.splitOnP_eq_single (fun x => x == '\n')
      ("// ⚠️ AUTO-GENERATED FILE — DO NOT EDIT" : String).data (by decide)]
    rw [splitOnP_sep_append (fun x => x == '\n') '\n' (by simp)
      ("// Source: " ++ B).data]
    rw [List.splitOnP_eq_single (fun x => x == '\n') ("// Source: " ++ B).data
      (fun x hx => by
        simp only [beq_iff_eq]
        intro e
        subst e
        rw [String.data_append] at hx
        rcases List.mem_append.mp hx with h1 | h1
        · exact absurd h1 (by decide)
        · exact hBn h1)]
    simp [mk_data]
    exact str_ext _ _ (by simp [String.data_append])

end EnvTypes

namespace EnvTypes

theorem c6_witness :
    findEnvFile [".env.local", ".env"] ⟨[(".env", "PROD_VAR=prod")]⟩ = some ".env" ∧
    generate [".env.local", ".env"] "env.d.ts" false ⟨2025, 0, 5, 3, 4, 5⟩
        ⟨[(".env", "PROD_VAR=prod")]⟩ =
      generate [".env"] "env.d.ts" false ⟨2025, 0, 5, 3, 4, 5⟩
        ⟨[(".env", "PROD_VAR=prod")]⟩ ∧
    (strSplitChar
        (generateDTS false
          (parseEnvFile (((⟨[(".env", "PROD_VAR=prod")]⟩ : FS).read ".env").getD ""))
          ".env" ⟨2025, 0, 5, 3, 4, 5⟩) '\n')[1]? =
      some ("// Source: " ++ ".env") :=
  c6_first_existing_candidate_wins ".env.local" ".env" "env.d.ts" false
    ⟨2025, 0, 5, 3, 4, 5⟩ ⟨[(".env", "PROD_VAR=prod")]⟩
    (by decide) (by decide) (by decide)

theorem strContainsChar_of_mem (s : String) (c : Char) (h : c ∈ s.data) :
    strContainsChar s c = true := by
  simp [strContainsChar]
  exact h

theorem strContainsChar_of_not_mem (s : String) (c : Char) (h : c ∉ s.data) :
    strContainsChar s c = false := by
  simp [strContainsChar]
  exact h

/-- C2: a declaration line whose value contains further `=` characters is
split only on the first `=`: the produced key is the trimmed text before
the first `=`, the whole remainder is the value part, parsing yields
exactly one entry, and the default rendering of that entry is a generic
string-typed, optionally-absent member. -/
theorem c2_split_on_first_equals (k v : String)
    (hk : '=' ∉ k.data)
    (hkn : '\n' ∉ k.data) (hvn : '\n' ∉ v.data)
    (ht : jsTrim (k ++ "=" ++ v) = k ++ "=" ++ v)
    (hcm : strStartsWith (k ++ "=" ++ v) "#" = false)
    (hexp : strStartsWith (k ++ "=" ++ v) "export " = false)
    (hvh : '#' ∉ v.data) :
    parseDeclLine (k ++ "=" ++ v) = (jsTrim k, v, none) ∧
    parseEnvFile (k ++ "=" ++ v) = [{ key := jsTrim k, comment := none }] ∧
    generateInterfaceBody false (parseEnvFile (k ++ "=" ++ v)) =
      "    " ++ jsTrim k ++ "?: string;" := by
  have hd : (k ++ "=" ++ v).data = k.data ++ '=' :: v.data := by
    simp [String.data_append]
  have hnl : '\n' ∉ (k ++ "=" ++ v).data := by
    rw [hd]
    intro hm
    rcases List.mem_append.mp hm with h1 | h1
    · exact hkn h1
    · rcases List.mem_cons.mp h1 with h2 | h2
      · exact absurd h2 (by decide)
      · exact hvn h2
  have hcontains : strContainsChar (k ++ "=" ++ v) '=' = true :=
    strContainsChar_of_mem _ _ (by rw [hd]; exact List.mem_append_right _ (List.mem_cons_self _ _))
  have hdecl2 : parseDeclLine (k ++ "=" ++ v) = (jsTrim k, v, none) := by
    rw [parseDeclLine_eq k v hk, strContainsChar_of_not_mem v '#' hvh]
    simp
  have hne : jsTrim (k ++ "=" ++ v) ≠ "" := by
    rw [ht]
    intro e
    have hempty := congrArg String.data e
    rw [hd] at hempty
    simp at hempty
  have hparse : parseEnvFile (k ++ "=" ++ v) = [{ key := jsTrim k, comment := none }] := by
    rw [parseEnvFile_single _ hnl,
      parseEnvLoop_decl (k ++ "=" ++ v) [] [] hne
        (by rw [ht]; exact hcm) (by rw [ht]; exact hcontains)]
    simp only [ht, hexp, Bool.false_eq_true, if_false, hdecl2, List.nil_append,
      List.isEmpty_nil, if_true, parseEnvLoop]
  refine ⟨hdecl2, hparse, ?_⟩
  rw [hparse]
  simp only [generateInterfaceBody, List.map_cons, List.map_nil, strJoin_singleton,
    memberLine]
  exact str_ext _ _ (by simp [String.data_append])

theorem c2_witness :
    parseDeclLine ("CONNECTION_STRING" ++ "=" ++ "host=localhost;port=5432") =
      (jsTrim "CONNECTION_STRING", "host=localhost;port=5432", none) ∧
    parseEnvFile ("CONNECTION_STRING" ++ "=" ++ "host=localhost;port=5432") =
      [{ key := jsTrim "CONNECTION_STRING", comment := none }] ∧
    generateInterfaceBody false
        (parseEnvFile ("CONNECTION_STRING" ++ "=" ++ "host=localhost;port=5432")) =
      "    " ++ jsTrim "CONNECTION_STRING" ++ "?: string;" :=
  c2_split_on_first_equals "CONNECTION_STRING" "host=localhost;port=5432"
    (by decide) (by decide) (by decide) (by decide) (by decide) (by decide) (by decide)

end EnvTypes

namespace EnvTypes

/-- C9 (counterexample): the line `=value` is accepted as a declaration
and yields an entry whose key is the empty string, so the claimed
non-emptiness of every produced key fails. -/
theorem c9_counterexample : ¬ (∀ e ∈ parseEnvFile "=value", e.key ≠ "") := by
  decide

/-- C9 (amended): for every accepted declaration line, the produced key is
the whitespace-trimmed text before the first `=` (so it is trim-idempotent),
and it is non-empty whenever some character before the first `=` is not
whitespace; a line with nothing but whitespace before its `=` yields an
empty key. -/
theorem c9_key_is_trimmed_text (k v : String)
    (hk : '=' ∉ k.data) (hkn : '\n' ∉ k.data) (hvn : '\n' ∉ v.data)
    (ht : jsTrim (k ++ "=" ++ v) = k ++ "=" ++ v)
    (hcm : strStartsWith (k ++ "=" ++ v) "#" = false)
    (hexp : strStartsWith (k ++ "=" ++ v) "export " = false) :
    (parseEnvFile (k ++ "=" ++ v)).map EnvEntry.key = [jsTrim k] ∧
    jsTrim (jsTrim k) = jsTrim k ∧
    ((∃ ch ∈ k.data, ¬ch.isWhitespace) → jsTrim k ≠ "") := by
  have hd : (k ++ "=" ++ v).data = k.data ++ '=' :: v.data := by
    simp [String.data_append]
  have hnl : '\n' ∉ (k ++ "=" ++ v).data := by
    rw [hd]
    intro hm
    rcases List.mem_append.mp hm with h1 | h1
    · exact hkn h1
    · rcases List.mem_cons.mp h1 with h2 | h2
      · exact absurd h2 (by decide)
      · exact hvn h2
  have hcontains : strContainsChar (k ++ "=" ++ v) '=' = true :=
    strContainsChar_of_mem _ _
      (by rw [hd]; exact List.mem_append_right _ (List.mem_cons_self _ _))
  have hne : jsTrim (k ++ "=" ++ v) ≠ "" := by
    rw [ht]
    intro e
    have hempty := congrArg String.data e
    rw [hd] at hempty
    simp at hempty
  refine ⟨?_, jsTrim_idem k, jsTrim_ne_empty k⟩
  rw [parseEnvFile_single _ hnl,
    parseEnvLoop_decl (k ++ "=" ++ v) [] [] hne
      (by rw [ht]; exact hcm) (by rw [ht]; exact hcontains)]
  simp only [ht, hexp, Bool.false_eq_true, if_false, parseDeclLine_eq k v hk,
    parseEnvLoop, List.map_cons, List.map_nil]

theorem c9_witness :
    (parseEnvFile ("DB_HOST " ++ "=" ++ "1")).map EnvEntry.key =
      [jsTrim "DB_HOST "] ∧
    jsTrim (jsTrim "DB_HOST ") = jsTrim "DB_HOST " ∧
    ((∃ ch ∈ ("DB_HOST " : String).data, ¬ch.isWhitespace) →
      jsTrim "DB_HOST " ≠ "") :=
  c9_key_is_trimmed_text "DB_HOST " "1" (by decide) (by decide) (by decide)
    (by decide) (by decide) (by decide)

/-- C5: a blank (whitespace-only) line clears the pending-comment buffer,
so a comment block separated from a later key by a blank line never
reaches that key: the parse continues as if neither the comments nor any
buffered content existed.  The second conjunct is the spec's end-to-end
example: the blank line leaves `DB_PORT` with only its inline comment. -/
theorem c5_blank_line_clears_comments (ls : List String) (l0 : String)
    (rest buf : List String)
    (hcs : ∀ l ∈ ls, jsTrim l ≠ "" ∧ strStartsWith (jsTrim l) "#" = true)
    (h0 : jsTrim l0 = "") :
    parseEnvLoop (ls ++ l0 :: rest) buf = parseEnvLoop rest [] ∧
    parseEnvFile "# Database host\nDB_HOST=localhost\n\nDB_PORT=5432 # no comment buffer here" =
      [{ key := "DB_HOST", comment := some "Database host" },
       { key := "DB_PORT", comment := some "no comment buffer here" }] := by
  constructor
  · rw [parseEnvLoop_comments ls (l0 :: rest) buf hcs,
      parseEnvLoop_blank l0 rest _ h0]
  · decide

theorem c5_witness :
    parseEnvLoop (["# orphaned comment"] ++ "   " :: ["DB_PORT=5432"]) ["stale"] =
      parseEnvLoop ["DB_PORT=5432"] [] ∧
    parseEnvFile "# Database host\nDB_HOST=localhost\n\nDB_PORT=5432 # no comment buffer here" =
      [{ key := "DB_HOST", comment := some "Database host" },
       { key := "DB_PORT", comment := some "no comment buffer here" }] :=
  c5_blank_line_clears_comments ["# orphaned comment"] "   " ["DB_PORT=5432"]
    ["stale"] (by decide) (by decide)

/-- C8 (counterexample to exclusivity): the very same downgrade fires on
the watch-run call site: a generation failure during `watchRun` with a
changed env file is caught, logged with the plugin error message, and
nothing escapes — so the downgrade is not confined to the before-compile
call site. -/
theorem c8_counterexample :
    watchRunHook [".env"] (some ["/project/.env"]) (Except.error "boom") =
      { logs := ["[EnvTypesPlugin] Failed to generate env types: boom"]
        thrown := none } := by
  decide

/-- C8 (amended): a generation failure during the before-compile hook is
caught and swallowed — the error is logged with the plugin's message
prefix, nothing escapes, and the completion callback is still invoked;
the catch lives inside `generateTypes`, so every call site of
`generateTypes` (before-compile and watch-run alike) is downgraded the
same way, and no hook ever lets a generation failure escape. -/
theorem c8_generation_failure_swallowed :
    (∀ msg, beforeCompileHook (Except.error msg) =
      { outcome :=
          { logs := ["[EnvTypesPlugin] Failed to generate env types: " ++ msg]
            thrown := none }
        callbackInvoked := true }) ∧
    (∀ run, (generateTypes run).thrown = none) ∧
    (∀ envFiles changed run, (watchRunHook envFiles changed run).thrown = none) := by
  refine ⟨fun msg => rfl, fun run => ?_, fun envFiles changed run => ?_⟩
  · cases run <;> rfl
  · cases changed with
    | none => rfl
    | some l =>
      rw [watchRunHook]
      by_cases h : hasEnvFileChanged envFiles l = true
      · rw [if_pos h]
        cases run <;> rfl
      · rw [if_neg h]

end EnvTypes

namespace EnvTypes

/-- C7 (spec-modelled): with value-as-type mode enabled, every rendered
member line's type is the quoted literal raw value of the entry; with it
disabled (the default), the rendering coincides with the source
generator's generic string-typed rendering; the repository test's
instance `DB_HOST=localhost` renders with the pinned type
`"localhost"`. -/
theorem c7_value_as_type_toggle (dpt : Bool) :
    (∀ e : EnvEntryV, memberLineV true dpt e =
      "    " ++ e.key ++ (if dpt then "" else "?") ++ ": \"" ++ e.value ++ "\";") ∧
    (∀ entries : List EnvEntryV, generateInterfaceBodyV false dpt entries =
      generateInterfaceBody dpt (entries.map EnvEntryV.toEntry)) ∧
    generateInterfaceBodyV true false (parseEnvFileV "DB_HOST=localhost") =
      "    DB_HOST?: \"localhost\";" := by
  refine ⟨fun e => ?_, fun entries => ?_, by decide⟩
  · exact str_ext _ _ (by simp [memberLineV, String.data_append])
  · simp only [generateInterfaceBodyV, generateInterfaceBody, List.map_map]
    congr 1
    apply List.map_congr_left
    intro e _
    cases hc : e.comment with
    | none =>
      simp only [Function.comp, EnvEntryV.toEntry, hc]
      exact str_ext _ _ (by simp [memberLineV, memberLine, String.data_append])
    | some c =>
      simp only [Function.comp, EnvEntryV.toEntry, hc]
      exact str_ext _ _ (by simp [memberLineV, memberLine, String.data_append])

end EnvTypes

namespace EnvTypes

theorem stripCommentMarker_no_newline (l : String) (h : '\n' ∉ l.data) :
    '\n' ∉ (stripCommentMarker l).data := by
  unfold stripCommentMarker
  split
  next c rest heq =>
    split
    · intro hm
      apply h
      rw [heq]
      exact List.mem_cons_of_mem _ (List.mem_cons_of_mem _ hm)
    · intro hm
      apply h
      rw [heq]
      exact List.mem_cons_of_mem _ hm
  next heq =>
    intro hm
    simp at hm
  next =>
    exact h

theorem dropWhile_append_all (p : Char → Bool) (w r : List Char)
    (hw : ∀ x ∈ w, p x = true) :
    (w ++ r).dropWhile p = r.dropWhile p := by
  induction w with
  | nil => rfl
  | cons a as ih =>
    rw [List.cons_append, List.dropWhile_cons, hw a (List.mem_cons_self _ _)]
    simp only [if_true]
    exact ih (fun x hx => hw x (List.mem_cons_of_mem a hx))

theorem splitOn_strJoin_data (lines : List String)
    (h : ∀ l ∈ lines, '\n' ∉ l.data) (h2 : lines ≠ []) :
    (strJoin "\n" lines).data.splitOn '\n' = lines.map String.data := by
  have h1 := strSplitChar_strJoin_newline lines h h2
  have h3 := congrArg (List.map String.data) h1
  rw [strSplitChar, List.map_map] at h3
  rw [show List.map (String.data ∘ fun l => String.mk l)
      ((strJoin "\n" lines).data.splitOn '\n') =
    List.map id ((strJoin "\n" lines).data.splitOn '\n') from rfl] at h3
  rwa [List.map_id] at h3

theorem jsdoc_block_lines (comments : List String) (member : String)
    (hc : ∀ l ∈ comments, '\n' ∉ l.data) (hne : comments ≠ [])
    (hm : '\n' ∉ member.data) :
    strSplitChar (generateJSDoc (strJoin "\n" comments) ++ "\n" ++ member) '\n' =
      "    /**" :: (comments.map (fun c => "     * " ++ c) ++ ["     */", member]) := by
  have hpre : ∀ l ∈ comments.map (fun c => "     * " ++ c), '\n' ∉ l.data := by
    intro l hl
    obtain ⟨c, hcm, rfl⟩ := List.mem_map.mp hl
    exact not_mem_data_append _ _ _ (by decide) (hc c hcm)
  have hpne : comments.map (fun c => "     * " ++ c) ≠ [] := by simpa using hne
  have hsplit : strSplitChar (strJoin "\n" comments) '\n' = comments :=
    strSplitChar_strJoin_newline comments hc hne
  have hdata : (generateJSDoc (strJoin "\n" comments) ++ "\n" ++ member).data =
      ("    /**" : String).data ++
        '\n' :: ((strJoin "\n" ((strSplitChar (strJoin "\n" comments) '\n').map
            (fun line => "     * " ++ line))).data ++
          '\n' :: (("     */" : String).data ++ '\n' :: member.data)) := by
    simp [generateJSDoc, String.data_append, List.append_assoc, List.cons_append]
  rw [strSplitChar_decomp _ '\n' _ _ hdata]
  rw [List.splitOnP_eq_single (fun x => x == '\n') ("    /**" : String).data
    (by decide)]
  rw [hsplit]
  rw [show (strJoin "\n" (comments.map (fun line => "     * " ++ line))).data ++
      '\n' :: (("     */" : String).data ++ '\n' :: member.data) =
    (strJoin "\n" (comments.map (fun line => "     * " ++ line))).data ++
      '\n' :: (("     */" : String).data ++ '\n' :: member.data) from rfl]
  rw [splitOnP_sep_append (fun x => x == '\n') '\n' (by simp)
    (strJoin "\n" (comments.map (fun line => "     * " ++ line))).data
    (("     */" : String).data ++ '\n' :: member.data)]
  rw [splitOnP_sep_append (fun x => x == '\n') '\n' (by simp)
    ("     */" : String).data member.data]
  rw [List.splitOnP_eq_single (fun x => x == '\n') ("     */" : String).data
    (by decide)]
  rw [List.splitOnP_eq_single (fun x => x == '\n') member.data
    (fun x hx => by simp only [beq_iff_eq]; exact fun e => hm (e ▸ hx))]
  rw [show (strJoin "\n" (comments.map (fun line => "     * " ++ line))).data.splitOnP
      (fun x => x == '\n') =
    (strJoin "\n" (comments.map (fun line => "     * " ++ line))).data.splitOn '\n'
    from rfl]
  rw [splitOn_strJoin_data (comments.map (fun line => "     * " ++ line)) hpre hpne]
  simp only [List.map_append, List.map_cons, List.map_nil, List.map_map, mk_data,
    List.cons_append, List.nil_append]
  rw [show List.map (String.mk ∘ String.data ∘ fun line => "     * " ++ line) comments =
      List.map (fun line => "     * " ++ line) comments from rfl,
    show String.mk [' ', ' ', ' ', ' ', '/', '*', '*'] = "    /**" from rfl,
    show String.mk [' ', ' ', ' ', ' ', ' ', '*', '/'] = "     */" from rfl]

end EnvTypes

namespace EnvTypes

theorem parseDeclLine_inline (k w ic : String)
    (hk : '=' ∉ k.data) (hwh : '#' ∉ w.data) :
    parseDeclLine (k ++ "=" ++ (w ++ "#" ++ ic)) =
      (jsTrim k, w ++ "#" ++ ic, some (jsTrim ic)) := by
  rw [parseDeclLine_eq k (w ++ "#" ++ ic) hk]
  have hcontains : strContainsChar (w ++ "#" ++ ic) '#' = true :=
    strContainsChar_of_mem _ _ (by
      rw [show (w ++ "#" ++ ic).data = w.data ++ '#' :: ic.data by
        simp [String.data_append]]
      exact List.mem_append_right _ (List.mem_cons_self _ _))
  rw [hcontains, if_pos rfl]
  have hdrop : (((w ++ "#" ++ ic).data.dropWhile (fun c => !(c == '#'))).drop 1) =
      ic.data := by
    rw [show (w ++ "#" ++ ic).data = w.data ++ '#' :: ic.data by
      simp [String.data_append]]
    rw [dropWhile_append_all _ w.data _
      (fun x hx => by
        simp only [Bool.not_eq_true', beq_eq_false_iff_ne, ne_eq]
        exact fun e => hwh (e ▸ hx))]
    rw [List.dropWhile_cons]
    simp
  rw [hdrop, mk_data]

/-- C3: a key line carrying an inline comment (one whose text trims to
something nonempty — an inline comment trimming to the empty string is
falsy in JS and dropped by the source, lines 103-106), preceded by
contiguous comment lines with no blank in between, parses to exactly one
entry whose comment is the stripped comment lines in file order followed
by the trimmed inline comment, joined by newlines; the rendered output
splits into the JSDoc opener, one prefixed line per comment paragraph in
the same order, the JSDoc closer, and then the member line. -/
theorem c3_comment_block_roundtrip (cs : List String) (k w ic : String)
    (hcs : ∀ l ∈ cs, jsTrim l = l ∧ l ≠ "" ∧ strStartsWith l "#" = true ∧
      '\n' ∉ l.data)
    (hk : '=' ∉ k.data) (hkn : '\n' ∉ k.data)
    (hwn : '\n' ∉ w.data) (hicn : '\n' ∉ ic.data) (hwh : '#' ∉ w.data)
    (hicne : jsTrim ic ≠ "")
    (ht : jsTrim (k ++ "=" ++ (w ++ "#" ++ ic)) = k ++ "=" ++ (w ++ "#" ++ ic))
    (hcm : strStartsWith (k ++ "=" ++ (w ++ "#" ++ ic)) "#" = false)
    (hexp : strStartsWith (k ++ "=" ++ (w ++ "#" ++ ic)) "export " = false) :
    parseEnvFile (strJoin "\n" (cs ++ [k ++ "=" ++ (w ++ "#" ++ ic)])) =
      [{ key := jsTrim k
         comment := some (strJoin "\n"
           (cs.map stripCommentMarker ++ [jsTrim ic])) }] ∧
    strSplitChar (generateInterfaceBody false
        (parseEnvFile (strJoin "\n" (cs ++ [k ++ "=" ++ (w ++ "#" ++ ic)])))) '\n' =
      "    /**" ::
        ((cs.map stripCommentMarker ++ [jsTrim ic]).map (fun c => "     * " ++ c) ++
          ["     */", "    " ++ jsTrim k ++ "?: string;"]) := by
  have hkld : (k ++ "=" ++ (w ++ "#" ++ ic)).data =
      k.data ++ '=' :: (w.data ++ '#' :: ic.data) := by
    simp [String.data_append]
  have hklnl : '\n' ∉ (k ++ "=" ++ (w ++ "#" ++ ic)).data := by
    rw [hkld]
    intro hm
    rcases List.mem_append.mp hm with h1 | h1
    · exact hkn h1
    rcases List.mem_cons.mp h1 with h2 | h2
    · exact absurd h2 (by decide)
    rcases List.mem_append.mp h2 with h3 | h3
    · exact hwn h3
    rcases List.mem_cons.mp h3 with h4 | h4
    · exact absurd h4 (by decide)
    · exact hicn h4
  have hlines : ∀ l ∈ cs ++ [k ++ "=" ++ (w ++ "#" ++ ic)], '\n' ∉ l.data := by
    intro l hl
    rcases List.mem_append.mp hl with h1 | h1
    · exact (hcs l h1).2.2.2
    · rw [List.mem_singleton] at h1
      rw [h1]
      exact hklnl
  have hne2 : cs ++ [k ++ "=" ++ (w ++ "#" ++ ic)] ≠ [] := by simp
  have hbuf : cs.map (fun l => stripCommentMarker (jsTrim l)) =
      cs.map stripCommentMarker :=
    List.map_congr_left (fun l hl => by rw [(hcs l hl).1])
  have hne' : jsTrim (k ++ "=" ++ (w ++ "#" ++ ic)) ≠ "" := by
    rw [ht]
    intro e
    have hempty := congrArg String.data e
    rw [hkld] at hempty
    simp at hempty
  have hparse : parseEnvFile (strJoin "\n" (cs ++ [k ++ "=" ++ (w ++ "#" ++ ic)])) =
      [{ key := jsTrim k
         comment := some (strJoin "\n"
           (cs.map stripCommentMarker ++ [jsTrim ic])) }] := by
    rw [parseEnvFile_lines _ hlines hne2,
      parseEnvLoop_comments cs [k ++ "=" ++ (w ++ "#" ++ ic)] []
        (fun l hl => ⟨by rw [(hcs l hl).1]; exact (hcs l hl).2.1,
          by rw [(hcs l hl).1]; exact (hcs l hl).2.2.1⟩),
      List.nil_append, hbuf,
      parseEnvLoop_decl (k ++ "=" ++ (w ++ "#" ++ ic)) [] _ hne'
        (by rw [ht]; exact hcm)
        (by
          rw [ht]
          exact strContainsChar_of_mem _ _ (by
            rw [hkld]
            exact List.mem_append_right _ (List.mem_cons_self _ _)))]
    simp only [ht, hexp, Bool.false_eq_true, if_false,
      parseDeclLine_inline k w ic hk hwh, parseEnvLoop]
    rw [if_neg hicne]
    simp
  refine ⟨hparse, ?_⟩
  rw [hparse]
  simp only [generateInterfaceBody, List.map_cons, List.map_nil, strJoin_singleton]
  rw [show memberLine false
      ⟨jsTrim k, some (strJoin "\n" (cs.map stripCommentMarker ++ [jsTrim ic]))⟩ =
    "    " ++ jsTrim k ++ "?: string;" from
      str_ext _ _ (by simp [memberLine, String.data_append])]
  exact jsdoc_block_lines (cs.map stripCommentMarker ++ [jsTrim ic])
    ("    " ++ jsTrim k ++ "?: string;")
    (by
      intro l hl
      rcases List.mem_append.mp hl with h1 | h1
      · obtain ⟨a, ha, rfl⟩ := List.mem_map.mp h1
        exact stripCommentMarker_no_newline a ((hcs a ha).2.2.2)
      · rw [List.mem_singleton] at h1
        rw [h1]
        exact jsTrim_not_mem ic '\n' hicn)
    (by simp)
    (not_mem_data_append _ _ _
      (not_mem_data_append _ _ _ (by decide) (jsTrim_not_mem k '\n' hkn))
      (by decide))

end EnvTypes

namespace EnvTypes

theorem c3_witness :
    parseEnvFile (strJoin "\n" (["# Line 1", "# Line 2"] ++
        ["DB_HOST" ++ "=" ++ ("localhost " ++ "#" ++ " database host")])) =
      [{ key := jsTrim "DB_HOST"
         comment := some (strJoin "\n"
           (["# Line 1", "# Line 2"].map stripCommentMarker ++
             [jsTrim " database host"])) }] ∧
    strSplitChar (generateInterfaceBody false
        (parseEnvFile (strJoin "\n" (["# Line 1", "# Line 2"] ++
          ["DB_HOST" ++ "=" ++ ("localhost " ++ "#" ++ " database host")])))) '\n' =
      "    /**" ::
        ((["# Line 1", "# Line 2"].map stripCommentMarker ++
            [jsTrim " database host"]).map (fun c => "     * " ++ c) ++
          ["     */", "    " ++ jsTrim "DB_HOST" ++ "?: string;"]) :=
  c3_comment_block_roundtrip ["# Line 1", "# Line 2"] "DB_HOST" "localhost "
    " database host" (by decide) (by decide) (by decide) (by decide) (by decide)
    (by decide) (by decide) (by decide) (by decide) (by decide)

end EnvTypes
